import Mathlib

/-!
Verification of the TWAP (time-weighted average price) execution engine of the
yatharth-binance-bot repository.

The repository contains two copies of the TWAP scheduler:

* `BinanceFuturesBot.place_twap_order` in `main.py` (lines 235-269): computes
  `slice_quantity = total_quantity / num_slices` and
  `interval_seconds = (duration_minutes * 60) / num_slices` once, then for
  `i in range(num_slices)` submits a market order of `slice_quantity` through
  `self.place_market_order`, appends the confirmation to `orders`, and sleeps
  `interval_seconds` when `i < num_slices - 1`; any exception in the loop body
  is caught and breaks the loop; the list `orders` is returned.

* `AdvancedTwap.place_twap_order` in `src/advanced/twap.py` (lines 9-43): the
  same skeleton, but the two lines that submit the order and append the
  confirmation are commented out, so `orders` stays empty; the sleep still
  runs.  This copy is the one imported by `src/console.py` and `src/main.py`
  (the GUI), both of which report `len(orders)` to the user.

The embedding below makes the side effects explicit:

* the exchange boundary (`self.place_market_order`, the spec's Order
  Submission Port) is a parameter `port` receiving the symbol, the side, the
  quantity and the 0-based call index, and returning `Except ε α` — `ok` is a
  confirmation (an opaque record), `error` models a raised exception;
* each call of the port is recorded as a `TwapEvent.submit index quantity`
  event, and each completed `time.sleep` as a `TwapEvent.sleep seconds` event;
* Python's `time.sleep` raises `ValueError` on a negative argument; since the
  sleep sits inside the `try`, a negative interval aborts the loop exactly
  like a failed submission, and no sleep event is recorded;
* `num_slices == 0` makes the up-front division raise `ZeroDivisionError`
  before the loop, modelled by the `Except PyErr` at the top level; a negative
  `num_slices` makes `range(num_slices)` empty;
* quantities and seconds are modelled as rationals (`ℚ`), mirroring the exact
  arithmetic of the divisions;
* the Python function returns only the list `orders`; the spec-level
  `TwapResult` fields are read off the execution: `filledSlices` is the
  returned list, `attemptedCount` the number of port calls made, `aborted`
  whether the loop broke early, `requestedCount` the slice count.
-/

/-- An observable effect of a TWAP run at the exchange boundary: a market-order
submission (with its 0-based slice index and quantity), or a completed
`time.sleep` of the given number of seconds. -/
inductive TwapEvent : Type where
  | submit (index : Nat) (quantity : ℚ)
  | sleep (seconds : ℚ)
deriving DecidableEq, Repr

/-- Python exceptions that escape `place_twap_order` itself (everything raised
inside the loop body is caught there). -/
inductive PyErr : Type where
  | zeroDivisionError
deriving DecidableEq, Repr

/-- State accumulated by the TWAP loop: the `orders` list built by the Python
code, the trace of boundary events, the number of submissions attempted, and
whether the loop broke early (`aborted` in the spec's `TwapResult`). -/
structure TwapRun (α : Type) : Type where
  orders : List α
  events : List TwapEvent
  attempted : Nat
  aborted : Bool
deriving DecidableEq, Repr

/-- The spec's `TwapResult`, read off a completed execution, together with the
event trace of the run.  `filledSlices` is the list the Python function
returns. -/
structure TwapResult (α : Type) : Type where
  filledSlices : List α
  attemptedCount : Nat
  requestedCount : Nat
  aborted : Bool
  events : List TwapEvent
deriving DecidableEq, Repr

namespace BinanceFuturesBot

/-- The loop `for i in range(num_slices)` of `place_twap_order` in `main.py`,
started at index `i` with `rem` iterations left (the top-level call uses
`i = 0`, `rem = num_slices`).  Each iteration runs
`try: order = self.place_market_order(symbol, side, slice_quantity);
orders.append(order); if i < num_slices - 1: time.sleep(interval_seconds)
except Exception: break`.  A port error is the raised exception of
`place_market_order`; a negative `interval_seconds` is the `ValueError`
raised by `time.sleep` — both are caught and break the loop. -/
def twapGo (port : String → String → ℚ → Nat → Except ε α) (symbol side : String)
    (num_slices : Nat) (slice_quantity interval_seconds : ℚ) :
    Nat → Nat → TwapRun α
  | _, 0 => ⟨[], [], 0, false⟩
  | i, rem + 1 =>
    match port symbol side slice_quantity i with
    | Except.error _ => ⟨[], [TwapEvent.submit i slice_quantity], 1, true⟩
    | Except.ok conf =>
      if i < num_slices - 1 then
        if interval_seconds < 0 then
          ⟨[conf], [TwapEvent.submit i slice_quantity], 1, true⟩
        else
          let r := twapGo port symbol side num_slices slice_quantity interval_seconds
            (i + 1) rem
          ⟨conf :: r.orders,
            TwapEvent.submit i slice_quantity :: TwapEvent.sleep interval_seconds :: r.events,
            r.attempted + 1, r.aborted⟩
      else
        let r := twapGo port symbol side num_slices slice_quantity interval_seconds
          (i + 1) rem
        ⟨conf :: r.orders, TwapEvent.submit i slice_quantity :: r.events,
          r.attempted + 1, r.aborted⟩

/-- `BinanceFuturesBot.place_twap_order` of `main.py`.  With `num_slices = 0`
the up-front division `total_quantity / num_slices` raises
`ZeroDivisionError`; otherwise `slice_quantity` and `interval_seconds` are
computed once and the loop runs over `range(num_slices)` (empty when
`num_slices < 0`).  The returned `TwapResult` packages the returned `orders`
list together with the execution's accounting and event trace. -/
def place_twap_order (port : String → String → ℚ → Nat → Except ε α)
    (symbol side : String) (total_quantity : ℚ) (duration_minutes num_slices : ℤ) :
    Except PyErr (TwapResult α) :=
  if num_slices = 0 then Except.error PyErr.zeroDivisionError
  else
    let slice_quantity : ℚ := total_quantity / (num_slices : ℚ)
    let interval_seconds : ℚ := (duration_minutes : ℚ) * 60 / (num_slices : ℚ)
    let r := twapGo port symbol side num_slices.toNat slice_quantity interval_seconds
      0 num_slices.toNat
    Except.ok ⟨r.orders, r.attempted, num_slices.toNat, r.aborted, r.events⟩

end BinanceFuturesBot

namespace AdvancedTwap

/-- The loop of the duplicate `place_twap_order` in `src/advanced/twap.py`:
the submission and append lines are commented out, so an iteration only logs
and, when `i < num_slices - 1`, sleeps.  The only exception the body can
raise is the `ValueError` of `time.sleep` on a negative interval, caught and
breaking the loop.  Only the event trace matters: `orders` is never touched. -/
def twapGo (num_slices : Nat) (interval_seconds : ℚ) : Nat → Nat → List TwapEvent
  | _, 0 => []
  | i, rem + 1 =>
    if i < num_slices - 1 then
      if interval_seconds < 0 then []
      else TwapEvent.sleep interval_seconds :: twapGo num_slices interval_seconds (i + 1) rem
    else twapGo num_slices interval_seconds (i + 1) rem

/-- The module-level `place_twap_order` of `src/advanced/twap.py` (the copy
imported by both front-ends).  It still divides by `num_slices` up front
(raising `ZeroDivisionError` when it is 0) and still sleeps between
iterations, but never submits an order: the returned `orders` list is the
empty list it was initialised to. -/
def place_twap_order (α : Type) (symbol side : String) (total_quantity : ℚ)
    (duration_minutes num_slices : ℤ) : Except PyErr (List α × List TwapEvent) :=
  if num_slices = 0 then Except.error PyErr.zeroDivisionError
  else
    let interval_seconds : ℚ := (duration_minutes : ℚ) * 60 / (num_slices : ℚ)
    Except.ok (([] : List α),
      twapGo num_slices.toNat interval_seconds 0 num_slices.toNat)

/-- The order count reported to the user by the console front-end
(`src/console.py`, menu choice 6): it calls the duplicate `place_twap_order`
and prints `len(orders)`. -/
def console_reported_count (symbol side : String) (total_quantity : ℚ)
    (duration_minutes num_slices : ℤ) : Except PyErr Nat :=
  Except.map (fun p => p.1.length)
    (place_twap_order Unit symbol side total_quantity duration_minutes num_slices)

/-- The order count reported by the GUI front-end
(`place_twap_order_gui` in `src/main.py`): it calls the same duplicate
`place_twap_order` and shows `len(orders)` in a message box. -/
def gui_reported_count (symbol side : String) (total_quantity : ℚ)
    (duration_minutes num_slices : ℤ) : Except PyErr Nat :=
  Except.map (fun p => p.1.length)
    (place_twap_order Unit symbol side total_quantity duration_minutes num_slices)

end AdvancedTwap

/-- The 0-based slice index of a submission event, `none` for a sleep. -/
def submitIndex : TwapEvent → Option Nat
  | TwapEvent.submit i _ => some i
  | TwapEvent.sleep _ => none

/-- Number of market-order submissions the port observed in a trace. -/
def submitCount (es : List TwapEvent) : Nat := (es.filterMap submitIndex).length

/-- Seconds contributed by one event to the total wait time. -/
def sleepSeconds : TwapEvent → ℚ
  | TwapEvent.submit _ _ => 0
  | TwapEvent.sleep s => s

/-- Total wall-clock wait time of a trace. -/
def totalSleep (es : List TwapEvent) : ℚ := (es.map sleepSeconds).sum

/-- The events one slice contributes to the trace: the submission, followed by
a sleep exactly when the submission succeeded and the slice is not the last. -/
def sliceEvents (port : String → String → ℚ → Nat → Except ε α) (symbol side : String)
    (num_slices : Nat) (slice_quantity interval_seconds : ℚ) (i : Nat) : List TwapEvent :=
  match port symbol side slice_quantity i with
  | Except.error _ => [TwapEvent.submit i slice_quantity]
  | Except.ok _ =>
    if i < num_slices - 1 then
      [TwapEvent.submit i slice_quantity, TwapEvent.sleep interval_seconds]
    else [TwapEvent.submit i slice_quantity]

namespace BinanceFuturesBot

variable {ε α : Type} (port : String → String → ℚ → Nat → Except ε α)
variable (symbol side : String) (n : Nat) (q w : ℚ)

/-- The loop attempts at most as many submissions as it has iterations left,
and appends at most one confirmation per attempted submission. -/
theorem twapGo_counts :
    ∀ rem i, (twapGo port symbol side n q w i rem).attempted ≤ rem ∧
      (twapGo port symbol side n q w i rem).orders.length ≤
        (twapGo port symbol side n q w i rem).attempted := by
  intro rem
  induction rem with
  | zero => intro i; simp [twapGo]
  | succ rem ih =>
    intro i
    simp only [twapGo]
    cases hp : port symbol side q i with
    | error e => simp
    | ok conf =>
      by_cases hlt : i < n - 1
      · by_cases hw : w < 0
        · simp [hlt, hw]
        · have h2 := ih (i + 1)
          simp only [hlt, if_true, hw, if_false]
          constructor
          · simpa using h2.1
          · simpa using h2.2
      · have h2 := ih (i + 1)
        simp only [hlt, if_false]
        constructor
        · simpa using h2.1
        · simpa using h2.2

/-- The submissions the port observes, read off the trace, are exactly the
consecutive indices starting at the loop's start index. -/
theorem twapGo_submits :
    ∀ rem i, (twapGo port symbol side n q w i rem).events.filterMap submitIndex =
      List.range' i (twapGo port symbol side n q w i rem).attempted := by
  intro rem
  induction rem with
  | zero => intro i; simp [twapGo]
  | succ rem ih =>
    intro i
    simp only [twapGo]
    cases hp : port symbol side q i with
    | error e => simp [submitIndex]
    | ok conf =>
      by_cases hlt : i < n - 1
      · by_cases hw : w < 0
        · simp [hlt, hw, submitIndex]
        · simp only [hlt, if_true, hw, if_false]
          simp [submitIndex, ih (i + 1), List.range'_succ]
      · simp only [hlt, if_false]
        simp [submitIndex, ih (i + 1), List.range'_succ]

/-- Every event of a run is either a submission of the up-front slice quantity
or a sleep of the up-front interval: neither is ever re-derived. -/
theorem twapGo_event_shape :
    ∀ rem i, ∀ ev ∈ (twapGo port symbol side n q w i rem).events,
      (∃ j, ev = TwapEvent.submit j q) ∨ ev = TwapEvent.sleep w := by
  intro rem
  induction rem with
  | zero => intro i; simp [twapGo]
  | succ rem ih =>
    intro i
    simp only [twapGo]
    cases hp : port symbol side q i with
    | error e => simp
    | ok conf =>
      by_cases hlt : i < n - 1
      · by_cases hw : w < 0
        · simp [hlt, hw]
        · simp only [hlt, if_true, hw, if_false]
          intro ev hev
          simp only [List.mem_cons] at hev
          rcases hev with h | h | h
          · exact Or.inl ⟨i, h⟩
          · exact Or.inr h
          · exact ih (i + 1) ev h
      · simp only [hlt, if_false]
        intro ev hev
        simp only [List.mem_cons] at hev
        rcases hev with h | h
        · exact Or.inl ⟨i, h⟩
        · exact ih (i + 1) ev h

/-- With a non-negative interval, the trace decomposes into per-slice chunks:
each attempted slice contributes its submission, followed by a sleep exactly
when the submission succeeded and the slice is not the last one. -/
theorem twapGo_chunks (hw : ¬ w < 0) :
    ∀ rem i, (twapGo port symbol side n q w i rem).events =
      ((List.range' i (twapGo port symbol side n q w i rem).attempted).map
        (sliceEvents port symbol side n q w)).flatten := by
  intro rem
  induction rem with
  | zero => intro i; simp [twapGo]
  | succ rem ih =>
    intro i
    simp only [twapGo]
    cases hp : port symbol side q i with
    | error e => simp [sliceEvents, hp]
    | ok conf =>
      by_cases hlt : i < n - 1
      · simp only [hlt, if_true, hw, if_false]
        simp [List.range'_succ, sliceEvents, hp, hlt, ih (i + 1)]
      · simp only [hlt, if_false]
        simp [List.range'_succ, sliceEvents, hp, hlt, ih (i + 1)]

/-- When every submission succeeds and the interval is non-negative, the loop
runs to the end: every remaining index is attempted, nothing aborts, and the
confirmations are collected in submission order. -/
theorem twapGo_all_ok (c : Nat → α) (hw : ¬ w < 0)
    (hok : ∀ j, port symbol side q j = Except.ok (c j)) :
    ∀ rem i, (twapGo port symbol side n q w i rem).orders =
        (List.range' i rem).map c ∧
      (twapGo port symbol side n q w i rem).attempted = rem ∧
      (twapGo port symbol side n q w i rem).aborted = false := by
  intro rem
  induction rem with
  | zero => intro i; simp [twapGo]
  | succ rem ih =>
    intro i
    simp only [twapGo, hok i]
    by_cases hlt : i < n - 1
    · simp only [hlt, if_true, hw, if_false]
      simp [List.range'_succ, (ih (i + 1)).1, (ih (i + 1)).2.1, (ih (i + 1)).2.2]
    · simp only [hlt, if_false]
      simp [List.range'_succ, (ih (i + 1)).1, (ih (i + 1)).2.1, (ih (i + 1)).2.2]

/-- When the first failure among the remaining indices is at index `f`, the
loop stops there: indices up to and including `f` are attempted, the
confirmations before `f` are kept, and the run is marked aborted. -/
theorem twapGo_first_fail (c : Nat → α) (f : Nat) (e : ε) (hw : ¬ w < 0)
    (hok : ∀ j, j < f → port symbol side q j = Except.ok (c j))
    (herr : port symbol side q f = Except.error e) :
    ∀ rem i, i ≤ f → f < i + rem →
      (twapGo port symbol side n q w i rem).orders = (List.range' i (f - i)).map c ∧
      (twapGo port symbol side n q w i rem).attempted = f - i + 1 ∧
      (twapGo port symbol side n q w i rem).aborted = true := by
  intro rem
  induction rem with
  | zero => intro i _ h2; omega
  | succ rem ih =>
    intro i h1 h2
    rcases Nat.eq_or_lt_of_le h1 with heq | hlt'
    · subst heq
      simp [twapGo, herr]
    · have hok' := hok i hlt'
      simp only [twapGo, hok']
      have h1' : i + 1 ≤ f := hlt'
      have h2' : f < i + 1 + rem := by omega
      have hrec := ih (i + 1) h1' h2'
      have hfi : f - i = f - (i + 1) + 1 := by omega
      by_cases hlt : i < n - 1
      · simp only [hlt, if_true, hw, if_false]
        simp [hfi, List.range'_succ, hrec.1, hrec.2.1, hrec.2.2]
      · simp only [hlt, if_false]
        simp [hfi, List.range'_succ, hrec.1, hrec.2.1, hrec.2.2]

/-- With a non-negative interval, the loop aborts exactly when one of the
attempted submissions failed. -/
theorem twapGo_aborted_iff (hw : ¬ w < 0) :
    ∀ rem i, (twapGo port symbol side n q w i rem).aborted = true ↔
      ∃ j < (twapGo port symbol side n q w i rem).attempted,
        ∃ e, port symbol side q (i + j) = Except.error e := by
  intro rem
  induction rem with
  | zero => intro i; simp [twapGo]
  | succ rem ih =>
    intro i
    simp only [twapGo]
    cases hp : port symbol side q i with
    | error e =>
      refine ⟨fun _ => ⟨0, Nat.zero_lt_one, e, by simpa using hp⟩, fun _ => rfl⟩
    | ok conf =>
      by_cases hlt : i < n - 1
      · simp only [hlt, if_true, hw, if_false]
        simp only [ih (i + 1)]
        constructor
        · rintro ⟨j, hj, e, he⟩
          exact ⟨j + 1, by simpa using Nat.add_lt_add_right hj 1,
            e, by rw [show i + (j + 1) = i + 1 + j by omega]; exact he⟩
        · rintro ⟨j, hj, e, he⟩
          cases j with
          | zero => rw [show i + 0 = i by omega] at he; rw [hp] at he; cases he
          | succ j =>
            exact ⟨j, by simpa using hj, e,
              by rw [show i + 1 + j = i + (j + 1) by omega]; exact he⟩
      · simp only [hlt, if_false]
        simp only [ih (i + 1)]
        constructor
        · rintro ⟨j, hj, e, he⟩
          exact ⟨j + 1, by simpa using Nat.add_lt_add_right hj 1,
            e, by rw [show i + (j + 1) = i + 1 + j by omega]; exact he⟩
        · rintro ⟨j, hj, e, he⟩
          cases j with
          | zero => rw [show i + 0 = i by omega] at he; rw [hp] at he; cases he
          | succ j =>
            exact ⟨j, by simpa using hj, e,
              by rw [show i + 1 + j = i + (j + 1) by omega]; exact he⟩

end BinanceFuturesBot

namespace AdvancedTwap

/-- Every event of the duplicate implementation's loop is a sleep of the
up-front interval: no submission is ever recorded. -/
theorem twapGo_all_sleep (n : Nat) (w : ℚ) :
    ∀ rem i, ∀ ev ∈ twapGo n w i rem, ev = TwapEvent.sleep w := by
  intro rem
  induction rem with
  | zero => intro i; simp [twapGo]
  | succ rem ih =>
    intro i
    simp only [twapGo]
    by_cases hlt : i < n - 1
    · by_cases hw : w < 0
      · simp [hlt, hw]
      · simp only [hlt, if_true, hw, if_false]
        intro ev hev
        rcases List.mem_cons.mp hev with h | h
        · exact h
        · exact ih (i + 1) ev h
    · simp only [hlt, if_false]
      exact ih (i + 1)

/-- With a non-negative interval, the duplicate implementation's loop sleeps
once for every iteration except the last. -/
theorem twapGo_replicate (n : Nat) (w : ℚ) (hw : ¬ w < 0) :
    ∀ rem i, twapGo n w i rem =
      List.replicate (min rem (n - 1 - i)) (TwapEvent.sleep w) := by
  intro rem
  induction rem with
  | zero => intro i; simp [twapGo]
  | succ rem ih =>
    intro i
    simp only [twapGo]
    by_cases hlt : i < n - 1
    · simp only [hlt, if_true, hw, if_false]
      rw [ih (i + 1)]
      rw [show min (rem + 1) (n - 1 - i) = min rem (n - 1 - (i + 1)) + 1 by omega]
      simp [List.replicate_succ]
    · simp only [hlt, if_false]
      rw [ih (i + 1)]
      rw [show min (rem + 1) (n - 1 - i) = 0 by omega,
        show min rem (n - 1 - (i + 1)) = 0 by omega]

end AdvancedTwap

namespace BinanceFuturesBot

variable {ε α : Type} (port : String → String → ℚ → Nat → Except ε α)
variable (symbol side : String) (total_quantity : ℚ) (duration_minutes num_slices : ℤ)

/-- Unfolding of `place_twap_order` on a non-zero slice count: the up-front
division does not raise, and the loop runs over `range(num_slices)` with the
two derived parameters. -/
theorem place_twap_order_eq (hne : num_slices ≠ 0) :
    place_twap_order port symbol side total_quantity duration_minutes num_slices =
      Except.ok
        ⟨(twapGo port symbol side num_slices.toNat (total_quantity / (num_slices : ℚ))
            ((duration_minutes : ℚ) * 60 / (num_slices : ℚ)) 0 num_slices.toNat).orders,
          (twapGo port symbol side num_slices.toNat (total_quantity / (num_slices : ℚ))
            ((duration_minutes : ℚ) * 60 / (num_slices : ℚ)) 0 num_slices.toNat).attempted,
          num_slices.toNat,
          (twapGo port symbol side num_slices.toNat (total_quantity / (num_slices : ℚ))
            ((duration_minutes : ℚ) * 60 / (num_slices : ℚ)) 0 num_slices.toNat).aborted,
          (twapGo port symbol side num_slices.toNat (total_quantity / (num_slices : ℚ))
            ((duration_minutes : ℚ) * 60 / (num_slices : ℚ)) 0 num_slices.toNat).events⟩ := by
  simp only [place_twap_order, if_neg hne]

/-- A valid request yields a non-negative inter-slice interval, so the
`time.sleep` call never raises. -/
theorem interval_nonneg (hd : 0 ≤ duration_minutes) (hn : 1 ≤ num_slices) :
    ¬ ((duration_minutes : ℚ) * 60 / (num_slices : ℚ) < 0) := by
  push_neg
  apply div_nonneg
  · have h0 : (0 : ℚ) ≤ (duration_minutes : ℚ) := by exact_mod_cast hd
    linarith
  · have h0 : (1 : ℚ) ≤ (num_slices : ℚ) := by exact_mod_cast hn
    linarith

end BinanceFuturesBot

/-- Claim C1: for every valid TwapRequest, if every slice submission through
the Order Submission Port succeeds, the TWAP execution submits exactly
`sliceCount` market orders and returns a result with
`attemptedCount == requestedCount`, `aborted == false`, and
`filledSlices.length == requestedCount`, the confirmations appearing in
submission order. -/
theorem twap_all_success {ε α : Type} (port : String → String → ℚ → Nat → Except ε α)
    (symbol side : String) (total_quantity : ℚ) (duration_minutes num_slices : ℤ)
    (c : Nat → α)
    (hq : 0 < total_quantity) (hd : 0 ≤ duration_minutes) (hn : 1 ≤ num_slices)
    (hok : ∀ i, port symbol side (total_quantity / (num_slices : ℚ)) i =
      Except.ok (c i)) :
    ∃ r, BinanceFuturesBot.place_twap_order port symbol side total_quantity
        duration_minutes num_slices = Except.ok r ∧
      submitCount r.events = num_slices.toNat ∧
      r.attemptedCount = r.requestedCount ∧
      r.requestedCount = num_slices.toNat ∧
      r.aborted = false ∧
      r.filledSlices.length = num_slices.toNat ∧
      r.filledSlices = (List.range num_slices.toNat).map c := by
  have hne : num_slices ≠ 0 := by omega
  have hw := BinanceFuturesBot.interval_nonneg duration_minutes num_slices hd hn
  obtain ⟨ho, ha, hab⟩ := BinanceFuturesBot.twapGo_all_ok port symbol side
    num_slices.toNat (total_quantity / (num_slices : ℚ))
    ((duration_minutes : ℚ) * 60 / (num_slices : ℚ)) c hw hok num_slices.toNat 0
  refine ⟨_, BinanceFuturesBot.place_twap_order_eq port symbol side total_quantity
    duration_minutes num_slices hne, ?_, ?_, rfl, ?_, ?_, ?_⟩
  · show ((BinanceFuturesBot.twapGo port symbol side num_slices.toNat
        (total_quantity / (num_slices : ℚ))
        ((duration_minutes : ℚ) * 60 / (num_slices : ℚ)) 0
        num_slices.toNat).events.filterMap submitIndex).length = num_slices.toNat
    rw [BinanceFuturesBot.twapGo_submits, List.length_range', ha]
  · show _ = num_slices.toNat
    exact ha
  · exact hab
  · show (BinanceFuturesBot.twapGo port symbol side num_slices.toNat
        (total_quantity / (num_slices : ℚ))
        ((duration_minutes : ℚ) * 60 / (num_slices : ℚ)) 0
        num_slices.toNat).orders.length = num_slices.toNat
    rw [ho, List.length_map, List.length_range']
  · show (BinanceFuturesBot.twapGo port symbol side num_slices.toNat
        (total_quantity / (num_slices : ℚ))
        ((duration_minutes : ℚ) * 60 / (num_slices : ℚ)) 0
        num_slices.toNat).orders = (List.range num_slices.toNat).map c
    rw [ho, List.range_eq_range']

/-- Claim C2: for every valid TwapRequest, if the k-th submission (1-indexed)
fails and all earlier ones succeed, the execution stops:
`attemptedCount == k`, `aborted == true`, `filledSlices.length == k-1`, and
the port observes exactly the submissions of 0-based indices `0 .. k-1`, so
no submission with 1-based index greater than `k` is ever sent. -/
theorem twap_first_failure {ε α : Type} (port : String → String → ℚ → Nat → Except ε α)
    (symbol side : String) (total_quantity : ℚ) (duration_minutes num_slices : ℤ)
    (c : Nat → α) (k : Nat) (e : ε)
    (hq : 0 < total_quantity) (hd : 0 ≤ duration_minutes) (hn : 1 ≤ num_slices)
    (hk1 : 1 ≤ k) (hk2 : k ≤ num_slices.toNat)
    (herr : port symbol side (total_quantity / (num_slices : ℚ)) (k - 1) =
      Except.error e)
    (hok : ∀ j, j < k - 1 → port symbol side (total_quantity / (num_slices : ℚ)) j =
      Except.ok (c j)) :
    ∃ r, BinanceFuturesBot.place_twap_order port symbol side total_quantity
        duration_minutes num_slices = Except.ok r ∧
      r.attemptedCount = k ∧
      r.aborted = true ∧
      r.filledSlices.length = k - 1 ∧
      r.events.filterMap submitIndex = List.range k := by
  have hne : num_slices ≠ 0 := by omega
  have hw := BinanceFuturesBot.interval_nonneg duration_minutes num_slices hd hn
  obtain ⟨ho, ha, hab⟩ := BinanceFuturesBot.twapGo_first_fail port symbol side
    num_slices.toNat (total_quantity / (num_slices : ℚ))
    ((duration_minutes : ℚ) * 60 / (num_slices : ℚ)) c (k - 1) e hw hok herr
    num_slices.toNat 0 (by omega) (by omega)
  refine ⟨_, BinanceFuturesBot.place_twap_order_eq port symbol side total_quantity
    duration_minutes num_slices hne, ?_, ?_, ?_, ?_⟩
  · show (BinanceFuturesBot.twapGo port symbol side num_slices.toNat
        (total_quantity / (num_slices : ℚ))
        ((duration_minutes : ℚ) * 60 / (num_slices : ℚ)) 0
        num_slices.toNat).attempted = k
    rw [ha]; omega
  · exact hab
  · show (BinanceFuturesBot.twapGo port symbol side num_slices.toNat
        (total_quantity / (num_slices : ℚ))
        ((duration_minutes : ℚ) * 60 / (num_slices : ℚ)) 0
        num_slices.toNat).orders.length = k - 1
    rw [ho, List.length_map, List.length_range']
    omega
  · show (BinanceFuturesBot.twapGo port symbol side num_slices.toNat
        (total_quantity / (num_slices : ℚ))
        ((duration_minutes : ℚ) * 60 / (num_slices : ℚ)) 0
        num_slices.toNat).events.filterMap submitIndex = List.range k
    rw [BinanceFuturesBot.twapGo_submits, ha, List.range_eq_range']
    congr 1
    omega

/-- Claim C4: for every valid TwapRequest, every submitted slice carries
quantity exactly `totalQuantity / sliceCount`, and every inter-slice wait is
the single up-front interval: the port observes the same quantity on every
slice, regardless of slice count. -/
theorem twap_slice_quantity_uniform {ε α : Type}
    (port : String → String → ℚ → Nat → Except ε α)
    (symbol side : String) (total_quantity : ℚ) (duration_minutes num_slices : ℤ)
    (hq : 0 < total_quantity) (hd : 0 ≤ duration_minutes) (hn : 1 ≤ num_slices) :
    ∃ r, BinanceFuturesBot.place_twap_order port symbol side total_quantity
        duration_minutes num_slices = Except.ok r ∧
      (∀ i q', TwapEvent.submit i q' ∈ r.events →
        q' = total_quantity / (num_slices : ℚ)) ∧
      (∀ s, TwapEvent.sleep s ∈ r.events →
        s = (duration_minutes : ℚ) * 60 / (num_slices : ℚ)) := by
  have hne : num_slices ≠ 0 := by omega
  refine ⟨_, BinanceFuturesBot.place_twap_order_eq port symbol side total_quantity
    duration_minutes num_slices hne, ?_, ?_⟩
  · intro i q' hmem
    have hshape := BinanceFuturesBot.twapGo_event_shape port symbol side
      num_slices.toNat (total_quantity / (num_slices : ℚ))
      ((duration_minutes : ℚ) * 60 / (num_slices : ℚ)) num_slices.toNat 0 _ hmem
    rcases hshape with ⟨j, hj⟩ | hj
    · injection hj with h1 h2
    · cases hj
  · intro s hmem
    have hshape := BinanceFuturesBot.twapGo_event_shape port symbol side
      num_slices.toNat (total_quantity / (num_slices : ℚ))
      ((duration_minutes : ℚ) * 60 / (num_slices : ℚ)) num_slices.toNat 0 _ hmem
    rcases hshape with ⟨j, hj⟩ | hj
    · cases hj
    · injection hj with h1

/-- Claim C5: for every valid TwapRequest, the trace decomposes into
per-slice chunks in which a suspension of exactly
`durationSeconds / sliceCount` follows each slice that both succeeded and is
not the last, and only those: no suspension follows the final slice or a
failing slice, and every suspension is for the up-front interval
(`durationSeconds = 60 * duration_minutes`). -/
theorem twap_sleep_placement {ε α : Type}
    (port : String → String → ℚ → Nat → Except ε α)
    (symbol side : String) (total_quantity : ℚ) (duration_minutes num_slices : ℤ)
    (hq : 0 < total_quantity) (hd : 0 ≤ duration_minutes) (hn : 1 ≤ num_slices) :
    ∃ r, BinanceFuturesBot.place_twap_order port symbol side total_quantity
        duration_minutes num_slices = Except.ok r ∧
      r.events = ((List.range r.attemptedCount).map
        (sliceEvents port symbol side num_slices.toNat
          (total_quantity / (num_slices : ℚ))
          ((duration_minutes : ℚ) * 60 / (num_slices : ℚ)))).flatten ∧
      (∀ s, TwapEvent.sleep s ∈ r.events →
        s = (duration_minutes : ℚ) * 60 / (num_slices : ℚ)) := by
  have hne : num_slices ≠ 0 := by omega
  have hw := BinanceFuturesBot.interval_nonneg duration_minutes num_slices hd hn
  refine ⟨_, BinanceFuturesBot.place_twap_order_eq port symbol side total_quantity
    duration_minutes num_slices hne, ?_, ?_⟩
  · show (BinanceFuturesBot.twapGo port symbol side num_slices.toNat
        (total_quantity / (num_slices : ℚ))
        ((duration_minutes : ℚ) * 60 / (num_slices : ℚ)) 0
        num_slices.toNat).events = _
    rw [List.range_eq_range']
    exact BinanceFuturesBot.twapGo_chunks port symbol side num_slices.toNat
      (total_quantity / (num_slices : ℚ))
      ((duration_minutes : ℚ) * 60 / (num_slices : ℚ)) hw num_slices.toNat 0
  · intro s hmem
    have hshape := BinanceFuturesBot.twapGo_event_shape port symbol side
      num_slices.toNat (total_quantity / (num_slices : ℚ))
      ((duration_minutes : ℚ) * 60 / (num_slices : ℚ)) num_slices.toNat 0 _ hmem
    rcases hshape with ⟨j, hj⟩ | hj
    · cases hj
    · injection hj with h1

/-- Claim C7: for every execution, the submissions the port observes are
exactly the 0-based indices `0, 1, 2, …` in strictly increasing order: the
loop is sequential, so index `i+1` is never observed before the submission
of index `i` has completed. -/
theorem twap_submission_order {ε α : Type}
    (port : String → String → ℚ → Nat → Except ε α)
    (symbol side : String) (total_quantity : ℚ) (duration_minutes num_slices : ℤ)
    (hne : num_slices ≠ 0) :
    ∃ r, BinanceFuturesBot.place_twap_order port symbol side total_quantity
        duration_minutes num_slices = Except.ok r ∧
      r.events.filterMap submitIndex = List.range r.attemptedCount := by
  refine ⟨_, BinanceFuturesBot.place_twap_order_eq port symbol side total_quantity
    duration_minutes num_slices hne, ?_⟩
  show (BinanceFuturesBot.twapGo port symbol side num_slices.toNat
      (total_quantity / (num_slices : ℚ))
      ((duration_minutes : ℚ) * 60 / (num_slices : ℚ)) 0
      num_slices.toNat).events.filterMap submitIndex =
    List.range (BinanceFuturesBot.twapGo port symbol side num_slices.toNat
      (total_quantity / (num_slices : ℚ))
      ((duration_minutes : ℚ) * 60 / (num_slices : ℚ)) 0
      num_slices.toNat).attempted
  rw [BinanceFuturesBot.twapGo_submits, List.range_eq_range']

/-- Claim C8: for every valid TwapRequest and every behavior of the port, the
call returns a result value rather than raising: the slice-level error is
recorded only in aggregate, `aborted` being true exactly when one of the
attempted submissions failed. -/
theorem twap_no_exception_propagation {ε α : Type}
    (port : String → String → ℚ → Nat → Except ε α)
    (symbol side : String) (total_quantity : ℚ) (duration_minutes num_slices : ℤ)
    (hq : 0 < total_quantity) (hd : 0 ≤ duration_minutes) (hn : 1 ≤ num_slices) :
    ∃ r, BinanceFuturesBot.place_twap_order port symbol side total_quantity
        duration_minutes num_slices = Except.ok r ∧
      (r.aborted = true ↔ ∃ j < r.attemptedCount,
        ∃ e, port symbol side (total_quantity / (num_slices : ℚ)) j =
          Except.error e) := by
  have hne : num_slices ≠ 0 := by omega
  have hw := BinanceFuturesBot.interval_nonneg duration_minutes num_slices hd hn
  refine ⟨_, BinanceFuturesBot.place_twap_order_eq port symbol side total_quantity
    duration_minutes num_slices hne, ?_⟩
  have hiff := BinanceFuturesBot.twapGo_aborted_iff port symbol side
    num_slices.toNat (total_quantity / (num_slices : ℚ))
    ((duration_minutes : ℚ) * 60 / (num_slices : ℚ)) hw num_slices.toNat 0
  simpa using hiff

/-- Claim C9: for every valid TwapRequest and every behavior of the port, the
returned result satisfies `attemptedCount <= requestedCount` and
`filledSlices.length <= attemptedCount`. -/
theorem twap_result_invariants {ε α : Type}
    (port : String → String → ℚ → Nat → Except ε α)
    (symbol side : String) (total_quantity : ℚ) (duration_minutes num_slices : ℤ)
    (hq : 0 < total_quantity) (hd : 0 ≤ duration_minutes) (hn : 1 ≤ num_slices) :
    ∃ r, BinanceFuturesBot.place_twap_order port symbol side total_quantity
        duration_minutes num_slices = Except.ok r ∧
      r.attemptedCount ≤ r.requestedCount ∧
      r.filledSlices.length ≤ r.attemptedCount := by
  have hne : num_slices ≠ 0 := by omega
  obtain ⟨h1, h2⟩ := BinanceFuturesBot.twapGo_counts port symbol side
    num_slices.toNat (total_quantity / (num_slices : ℚ))
    ((duration_minutes : ℚ) * 60 / (num_slices : ℚ)) num_slices.toNat 0
  exact ⟨_, BinanceFuturesBot.place_twap_order_eq port symbol side total_quantity
    duration_minutes num_slices hne, h1, h2⟩

/-- Claim C6: degenerate parameter values are accepted without error.  With
`sliceCount == 1` the run performs exactly one immediate submission and no
wait; with `durationSeconds == 0` and `sliceCount == 5` all five submissions
happen with zero total wait time and every index attempted, when every
submission succeeds. -/
theorem twap_degenerate_params {ε α : Type}
    (port : String → String → ℚ → Nat → Except ε α)
    (symbol side : String) (total_quantity : ℚ) (duration_minutes : ℤ) (c : Nat → α)
    (hq : 0 < total_quantity) (hd : 0 ≤ duration_minutes)
    (hok : ∀ q' i, port symbol side q' i = Except.ok (c i)) :
    (∃ r, BinanceFuturesBot.place_twap_order port symbol side total_quantity
        duration_minutes 1 = Except.ok r ∧
      submitCount r.events = 1 ∧ r.attemptedCount = 1 ∧ r.aborted = false ∧
      (∀ s, TwapEvent.sleep s ∉ r.events)) ∧
    (∃ r, BinanceFuturesBot.place_twap_order port symbol side total_quantity 0 5 =
        Except.ok r ∧
      submitCount r.events = 5 ∧ r.attemptedCount = 5 ∧ r.aborted = false ∧
      totalSleep r.events = 0) := by
  constructor
  · have hne : (1 : ℤ) ≠ 0 := by norm_num
    have hw := BinanceFuturesBot.interval_nonneg duration_minutes 1 hd (by norm_num)
    obtain ⟨ho, ha, hab⟩ := BinanceFuturesBot.twapGo_all_ok port symbol side
      (1 : ℤ).toNat (total_quantity / ((1 : ℤ) : ℚ))
      ((duration_minutes : ℚ) * 60 / ((1 : ℤ) : ℚ)) c hw
      (fun j => hok _ j) (1 : ℤ).toNat 0
    have hchunks := BinanceFuturesBot.twapGo_chunks port symbol side
      (1 : ℤ).toNat (total_quantity / ((1 : ℤ) : ℚ))
      ((duration_minutes : ℚ) * 60 / ((1 : ℤ) : ℚ)) hw (1 : ℤ).toNat 0
    have hev : (BinanceFuturesBot.twapGo port symbol side
        (1 : ℤ).toNat (total_quantity / ((1 : ℤ) : ℚ))
        ((duration_minutes : ℚ) * 60 / ((1 : ℤ) : ℚ)) 0 (1 : ℤ).toNat).events =
        [TwapEvent.submit 0 (total_quantity / ((1 : ℤ) : ℚ))] := by
      rw [hchunks, ha]
      simp [Int.toNat_one, sliceEvents, hok]
    refine ⟨_, BinanceFuturesBot.place_twap_order_eq port symbol side total_quantity
      duration_minutes 1 hne, ?_, ?_, hab, ?_⟩
    · show submitCount (BinanceFuturesBot.twapGo port symbol side
          (1 : ℤ).toNat (total_quantity / ((1 : ℤ) : ℚ))
          ((duration_minutes : ℚ) * 60 / ((1 : ℤ) : ℚ)) 0 (1 : ℤ).toNat).events = 1
      rw [submitCount, hev]
      simp [submitIndex]
    · show (BinanceFuturesBot.twapGo port symbol side
          (1 : ℤ).toNat (total_quantity / ((1 : ℤ) : ℚ))
          ((duration_minutes : ℚ) * 60 / ((1 : ℤ) : ℚ)) 0 (1 : ℤ).toNat).attempted = 1
      rw [ha, Int.toNat_one]
    · intro s hs
      rw [show (⟨(BinanceFuturesBot.twapGo port symbol side
          (1 : ℤ).toNat (total_quantity / ((1 : ℤ) : ℚ))
          ((duration_minutes : ℚ) * 60 / ((1 : ℤ) : ℚ)) 0 (1 : ℤ).toNat).orders,
          (BinanceFuturesBot.twapGo port symbol side
          (1 : ℤ).toNat (total_quantity / ((1 : ℤ) : ℚ))
          ((duration_minutes : ℚ) * 60 / ((1 : ℤ) : ℚ)) 0 (1 : ℤ).toNat).attempted,
          (1 : ℤ).toNat,
          (BinanceFuturesBot.twapGo port symbol side
          (1 : ℤ).toNat (total_quantity / ((1 : ℤ) : ℚ))
          ((duration_minutes : ℚ) * 60 / ((1 : ℤ) : ℚ)) 0 (1 : ℤ).toNat).aborted,
          (BinanceFuturesBot.twapGo port symbol side
          (1 : ℤ).toNat (total_quantity / ((1 : ℤ) : ℚ))
          ((duration_minutes : ℚ) * 60 / ((1 : ℤ) : ℚ)) 0 (1 : ℤ).toNat).events⟩ :
          TwapResult α).events = (BinanceFuturesBot.twapGo port symbol side
          (1 : ℤ).toNat (total_quantity / ((1 : ℤ) : ℚ))
          ((duration_minutes : ℚ) * 60 / ((1 : ℤ) : ℚ)) 0 (1 : ℤ).toNat).events
        from rfl, hev] at hs
      simp at hs
  · have hne : (5 : ℤ) ≠ 0 := by norm_num
    have hw := BinanceFuturesBot.interval_nonneg 0 5 (by norm_num) (by norm_num)
    obtain ⟨ho, ha, hab⟩ := BinanceFuturesBot.twapGo_all_ok port symbol side
      (5 : ℤ).toNat (total_quantity / ((5 : ℤ) : ℚ))
      (((0 : ℤ) : ℚ) * 60 / ((5 : ℤ) : ℚ)) c hw
      (fun j => hok _ j) (5 : ℤ).toNat 0
    have hw0 : ((0 : ℤ) : ℚ) * 60 / ((5 : ℤ) : ℚ) = 0 := by norm_num
    refine ⟨_, BinanceFuturesBot.place_twap_order_eq port symbol side total_quantity
      0 5 hne, ?_, ?_, hab, ?_⟩
    · show submitCount (BinanceFuturesBot.twapGo port symbol side
          (5 : ℤ).toNat (total_quantity / ((5 : ℤ) : ℚ))
          (((0 : ℤ) : ℚ) * 60 / ((5 : ℤ) : ℚ)) 0 (5 : ℤ).toNat).events = 5
      rw [submitCount, BinanceFuturesBot.twapGo_submits, List.length_range', ha]
      rfl
    · show (BinanceFuturesBot.twapGo port symbol side
          (5 : ℤ).toNat (total_quantity / ((5 : ℤ) : ℚ))
          (((0 : ℤ) : ℚ) * 60 / ((5 : ℤ) : ℚ)) 0 (5 : ℤ).toNat).attempted = 5
      rw [ha]; rfl
    · show totalSleep (BinanceFuturesBot.twapGo port symbol side
          (5 : ℤ).toNat (total_quantity / ((5 : ℤ) : ℚ))
          (((0 : ℤ) : ℚ) * 60 / ((5 : ℤ) : ℚ)) 0 (5 : ℤ).toNat).events = 0
      rw [totalSleep]
      apply List.sum_eq_zero
      intro x hx
      rcases List.mem_map.mp hx with ⟨ev, hev, hevx⟩
      have hshape := BinanceFuturesBot.twapGo_event_shape port symbol side
        (5 : ℤ).toNat (total_quantity / ((5 : ℤ) : ℚ))
        (((0 : ℤ) : ℚ) * 60 / ((5 : ℤ) : ℚ)) (5 : ℤ).toNat 0 ev hev
      rcases hshape with ⟨j, hj⟩ | hj
      · rw [← hevx, hj]; rfl
      · rw [← hevx, hj, show sleepSeconds (TwapEvent.sleep
          (((0 : ℤ) : ℚ) * 60 / ((5 : ℤ) : ℚ))) =
          ((0 : ℤ) : ℚ) * 60 / ((5 : ℤ) : ℚ) from rfl, hw0]

/-- Claim C3 counterexample: a request with negative `totalQuantity` is not
rejected.  With `total_quantity = -1`, `duration = 0`, `num_slices = 2` and a
port that accepts everything, both submissions reach the port and the call
returns normally: there is no fail-fast `InvalidRequest` (the code has no
validation at all). -/
theorem twap_no_validation_cex :
    Except.map (fun r => (r.attemptedCount, r.aborted, submitCount r.events))
      (BinanceFuturesBot.place_twap_order
        (fun _ _ _ _ => (Except.ok 0 : Except String Nat)) "BTCUSDT" "BUY"
        (-1) 0 2) = Except.ok (2, false, 2) := by
  norm_num [BinanceFuturesBot.place_twap_order, BinanceFuturesBot.twapGo,
    submitCount, submitIndex, Except.map, show (2 : ℤ).toNat = 2 from rfl]
  rfl

/-- Claim C3 amended: the code performs no `InvalidRequest` validation.  A
request with `sliceCount == 0` raises `ZeroDivisionError` at the up-front
division, before any submission; a negative `sliceCount` yields an empty run
with no submissions and no error; a non-positive `totalQuantity` is submitted
exactly like a valid one; and a negative duration is not rejected either —
the run aborts at the first inter-slice sleep (whose negative argument makes
`time.sleep` raise), after one successful submission. -/
theorem twap_no_validation {ε α : Type}
    (port : String → String → ℚ → Nat → Except ε α)
    (symbol side : String) (total_quantity : ℚ) (duration_minutes num_slices : ℤ)
    (c : Nat → α) :
    (num_slices = 0 →
      BinanceFuturesBot.place_twap_order port symbol side total_quantity
        duration_minutes num_slices = Except.error PyErr.zeroDivisionError) ∧
    (num_slices < 0 →
      ∃ r, BinanceFuturesBot.place_twap_order port symbol side total_quantity
          duration_minutes num_slices = Except.ok r ∧
        r.attemptedCount = 0 ∧ r.events = [] ∧ r.aborted = false) ∧
    (total_quantity ≤ 0 → 0 ≤ duration_minutes → 1 ≤ num_slices →
      (∀ q' i, port symbol side q' i = Except.ok (c i)) →
      ∃ r, BinanceFuturesBot.place_twap_order port symbol side total_quantity
          duration_minutes num_slices = Except.ok r ∧
        r.attemptedCount = num_slices.toNat ∧ r.aborted = false) ∧
    (duration_minutes < 0 → 2 ≤ num_slices →
      (∀ q' i, port symbol side q' i = Except.ok (c i)) →
      ∃ r, BinanceFuturesBot.place_twap_order port symbol side total_quantity
          duration_minutes num_slices = Except.ok r ∧
        r.attemptedCount = 1 ∧ r.aborted = true ∧ r.filledSlices.length = 1) := by
  refine ⟨?_, ?_, ?_, ?_⟩
  · intro h0
    simp [BinanceFuturesBot.place_twap_order, h0]
  · intro hneg
    have hne : num_slices ≠ 0 := by omega
    have ht0 : num_slices.toNat = 0 := by omega
    refine ⟨_, BinanceFuturesBot.place_twap_order_eq port symbol side total_quantity
      duration_minutes num_slices hne, ?_, ?_, ?_⟩
    · show (BinanceFuturesBot.twapGo port symbol side num_slices.toNat
          (total_quantity / (num_slices : ℚ))
          ((duration_minutes : ℚ) * 60 / (num_slices : ℚ)) 0
          num_slices.toNat).attempted = 0
      rw [ht0]; rfl
    · show (BinanceFuturesBot.twapGo port symbol side num_slices.toNat
          (total_quantity / (num_slices : ℚ))
          ((duration_minutes : ℚ) * 60 / (num_slices : ℚ)) 0
          num_slices.toNat).events = []
      rw [ht0]; rfl
    · show (BinanceFuturesBot.twapGo port symbol side num_slices.toNat
          (total_quantity / (num_slices : ℚ))
          ((duration_minutes : ℚ) * 60 / (num_slices : ℚ)) 0
          num_slices.toNat).aborted = false
      rw [ht0]; rfl
  · intro hq0 hd hn hok
    have hne : num_slices ≠ 0 := by omega
    have hw := BinanceFuturesBot.interval_nonneg duration_minutes num_slices hd hn
    obtain ⟨ho, ha, hab⟩ := BinanceFuturesBot.twapGo_all_ok port symbol side
      num_slices.toNat (total_quantity / (num_slices : ℚ))
      ((duration_minutes : ℚ) * 60 / (num_slices : ℚ)) c hw
      (fun j => hok _ j) num_slices.toNat 0
    exact ⟨_, BinanceFuturesBot.place_twap_order_eq port symbol side total_quantity
      duration_minutes num_slices hne, ha, hab⟩
  · intro hdneg hn2 hok
    have hne : num_slices ≠ 0 := by omega
    have hwneg : (duration_minutes : ℚ) * 60 / (num_slices : ℚ) < 0 := by
      apply div_neg_of_neg_of_pos
      · have h1 : (duration_minutes : ℚ) < 0 := by exact_mod_cast hdneg
        linarith
      · exact_mod_cast (by omega : (0 : ℤ) < num_slices)
    obtain ⟨m, hm⟩ : ∃ m, num_slices.toNat = m + 1 :=
      ⟨num_slices.toNat - 1, by omega⟩
    have hm1 : 1 ≤ m := by omega
    have hstep : BinanceFuturesBot.twapGo port symbol side num_slices.toNat
        (total_quantity / (num_slices : ℚ))
        ((duration_minutes : ℚ) * 60 / (num_slices : ℚ)) 0 num_slices.toNat =
        ⟨[c 0], [TwapEvent.submit 0 (total_quantity / (num_slices : ℚ))], 1, true⟩ := by
      rw [hm]
      simp only [BinanceFuturesBot.twapGo, hok]
      rw [if_pos (by omega : (0 : Nat) < m + 1 - 1), if_pos hwneg]
    refine ⟨_, BinanceFuturesBot.place_twap_order_eq port symbol side total_quantity
      duration_minutes num_slices hne, ?_, ?_, ?_⟩
    · show (BinanceFuturesBot.twapGo port symbol side num_slices.toNat
          (total_quantity / (num_slices : ℚ))
          ((duration_minutes : ℚ) * 60 / (num_slices : ℚ)) 0
          num_slices.toNat).attempted = 1
      rw [hstep]
    · show (BinanceFuturesBot.twapGo port symbol side num_slices.toNat
          (total_quantity / (num_slices : ℚ))
          ((duration_minutes : ℚ) * 60 / (num_slices : ℚ)) 0
          num_slices.toNat).aborted = true
      rw [hstep]
    · show (BinanceFuturesBot.twapGo port symbol side num_slices.toNat
          (total_quantity / (num_slices : ℚ))
          ((duration_minutes : ℚ) * 60 / (num_slices : ℚ)) 0
          num_slices.toNat).orders.length = 1
      rw [hstep]
      rfl

/-- Claim C10 counterexample: "for every input" fails at `num_slices = 0`:
the duplicate implementation raises `ZeroDivisionError` at its up-front
division instead of returning the empty list. -/
theorem advanced_twap_zero_slices_cex :
    AdvancedTwap.place_twap_order Nat "BTCUSDT" "BUY" 1 0 0 =
      Except.error PyErr.zeroDivisionError := rfl

/-- Claim C10 amended: for every input with non-zero `sliceCount`, the
duplicate TWAP implementation in `src/advanced/twap.py` submits no order and
returns the empty list, its trace consisting only of inter-slice sleeps
(`sliceCount == 0` instead raises a division error); for a valid request the
trace is exactly one sleep of the inter-slice interval per non-final
iteration; both the console and the GUI front-end invoke this copy, so the
order count they report is always 0. -/
theorem advanced_twap_stub (α : Type) (symbol side : String) (total_quantity : ℚ)
    (duration_minutes num_slices : ℤ) :
    (num_slices = 0 →
      AdvancedTwap.place_twap_order α symbol side total_quantity duration_minutes
        num_slices = Except.error PyErr.zeroDivisionError) ∧
    (num_slices ≠ 0 →
      ∃ es, AdvancedTwap.place_twap_order α symbol side total_quantity
          duration_minutes num_slices = Except.ok (([] : List α), es) ∧
        (∀ ev ∈ es, ev = TwapEvent.sleep
          ((duration_minutes : ℚ) * 60 / (num_slices : ℚ))) ∧
        submitCount es = 0 ∧
        AdvancedTwap.console_reported_count symbol side total_quantity
          duration_minutes num_slices = Except.ok 0 ∧
        AdvancedTwap.gui_reported_count symbol side total_quantity
          duration_minutes num_slices = Except.ok 0) ∧
    (1 ≤ num_slices → 0 ≤ duration_minutes →
      ∃ es, AdvancedTwap.place_twap_order α symbol side total_quantity
          duration_minutes num_slices = Except.ok (([] : List α), es) ∧
        es = List.replicate (num_slices.toNat - 1)
          (TwapEvent.sleep ((duration_minutes : ℚ) * 60 / (num_slices : ℚ)))) := by
  refine ⟨?_, ?_, ?_⟩
  · intro h0
    simp [AdvancedTwap.place_twap_order, h0]
  · intro hne
    refine ⟨AdvancedTwap.twapGo num_slices.toNat
        ((duration_minutes : ℚ) * 60 / (num_slices : ℚ)) 0 num_slices.toNat,
      ?_, ?_, ?_, ?_, ?_⟩
    · simp only [AdvancedTwap.place_twap_order, if_neg hne]
    · exact AdvancedTwap.twapGo_all_sleep num_slices.toNat
        ((duration_minutes : ℚ) * 60 / (num_slices : ℚ)) num_slices.toNat 0
    · rw [submitCount, List.filterMap_eq_nil_iff.mpr]
      · rfl
      · intro ev hev
        rw [AdvancedTwap.twapGo_all_sleep num_slices.toNat
          ((duration_minutes : ℚ) * 60 / (num_slices : ℚ)) num_slices.toNat 0 ev hev]
        rfl
    · simp [AdvancedTwap.console_reported_count, AdvancedTwap.place_twap_order,
        if_neg hne, Except.map]
    · simp [AdvancedTwap.gui_reported_count, AdvancedTwap.place_twap_order,
        if_neg hne, Except.map]
  · intro hn hd
    have hne : num_slices ≠ 0 := by omega
    have hw := BinanceFuturesBot.interval_nonneg duration_minutes num_slices hd hn
    refine ⟨AdvancedTwap.twapGo num_slices.toNat
        ((duration_minutes : ℚ) * 60 / (num_slices : ℚ)) 0 num_slices.toNat,
      ?_, ?_⟩
    · simp only [AdvancedTwap.place_twap_order, if_neg hne]
    rw [AdvancedTwap.twapGo_replicate num_slices.toNat
      ((duration_minutes : ℚ) * 60 / (num_slices : ℚ)) hw num_slices.toNat 0]
    congr 1
    omega

/-- Witness for C1 at a concrete request and an all-accepting port. -/
theorem twap_all_success_witness :
    ∃ r, BinanceFuturesBot.place_twap_order
        (fun _ _ _ i => (Except.ok i : Except String Nat)) "BTCUSDT" "BUY" 1 10 5 =
        Except.ok r ∧
      submitCount r.events = (5 : ℤ).toNat ∧
      r.attemptedCount = r.requestedCount ∧
      r.requestedCount = (5 : ℤ).toNat ∧
      r.aborted = false ∧
      r.filledSlices.length = (5 : ℤ).toNat ∧
      r.filledSlices = (List.range (5 : ℤ).toNat).map (fun i => i) :=
  twap_all_success (fun _ _ _ i => (Except.ok i : Except String Nat)) "BTCUSDT" "BUY"
    1 10 5 (fun i => i) (by norm_num) (by norm_num) (by norm_num) (fun i => rfl)

/-- Witness for C2: the 3rd submission (0-based index 2) is rejected. -/
theorem twap_first_failure_witness :
    ∃ r, BinanceFuturesBot.place_twap_order
        (fun _ _ _ i => if i = 2 then (Except.error "rejected" : Except String Nat)
          else Except.ok i) "BTCUSDT" "BUY" 1 10 5 = Except.ok r ∧
      r.attemptedCount = 3 ∧ r.aborted = true ∧ r.filledSlices.length = 3 - 1 ∧
      r.events.filterMap submitIndex = List.range 3 :=
  twap_first_failure
    (fun _ _ _ i => if i = 2 then (Except.error "rejected" : Except String Nat)
      else Except.ok i) "BTCUSDT" "BUY" 1 10 5 (fun i => i) 3 "rejected"
    (by norm_num) (by norm_num) (by norm_num) (by norm_num) (by decide)
    rfl (fun j hj => by simp only [if_neg (show j ≠ 2 by omega)])

/-- Witness for C3's amended statement at four concrete invalid requests. -/
theorem twap_no_validation_witness :
    (BinanceFuturesBot.place_twap_order
        (fun _ _ _ i => (Except.ok i : Except String Nat)) "BTCUSDT" "BUY" 1 7 0 =
      Except.error PyErr.zeroDivisionError) ∧
    (∃ r, BinanceFuturesBot.place_twap_order
        (fun _ _ _ i => (Except.ok i : Except String Nat)) "BTCUSDT" "BUY" 1 7 (-3) =
        Except.ok r ∧ r.attemptedCount = 0 ∧ r.events = [] ∧ r.aborted = false) ∧
    (∃ r, BinanceFuturesBot.place_twap_order
        (fun _ _ _ i => (Except.ok i : Except String Nat)) "BTCUSDT" "BUY" (-1) 0 4 =
        Except.ok r ∧ r.attemptedCount = (4 : ℤ).toNat ∧ r.aborted = false) ∧
    (∃ r, BinanceFuturesBot.place_twap_order
        (fun _ _ _ i => (Except.ok i : Except String Nat)) "BTCUSDT" "BUY" 1 (-2) 3 =
        Except.ok r ∧ r.attemptedCount = 1 ∧ r.aborted = true ∧
        r.filledSlices.length = 1) :=
  ⟨(twap_no_validation (fun _ _ _ i => (Except.ok i : Except String Nat))
      "BTCUSDT" "BUY" 1 7 0 (fun i => i)).1 rfl,
   (twap_no_validation (fun _ _ _ i => (Except.ok i : Except String Nat))
      "BTCUSDT" "BUY" 1 7 (-3) (fun i => i)).2.1 (by norm_num),
   (twap_no_validation (fun _ _ _ i => (Except.ok i : Except String Nat))
      "BTCUSDT" "BUY" (-1) 0 4 (fun i => i)).2.2.1 (by norm_num) (by norm_num)
      (by norm_num) (fun q' i => rfl),
   (twap_no_validation (fun _ _ _ i => (Except.ok i : Except String Nat))
      "BTCUSDT" "BUY" 1 (-2) 3 (fun i => i)).2.2.2 (by norm_num) (by norm_num)
      (fun q' i => rfl)⟩

/-- Witness for C4 at a concrete request. -/
theorem twap_slice_quantity_uniform_witness :
    ∃ r, BinanceFuturesBot.place_twap_order
        (fun _ _ _ i => (Except.ok i : Except String Nat)) "BTCUSDT" "BUY" 1 10 4 =
        Except.ok r ∧
      (∀ i q', TwapEvent.submit i q' ∈ r.events → q' = 1 / ((4 : ℤ) : ℚ)) ∧
      (∀ s, TwapEvent.sleep s ∈ r.events →
        s = ((10 : ℤ) : ℚ) * 60 / ((4 : ℤ) : ℚ)) :=
  twap_slice_quantity_uniform (fun _ _ _ i => (Except.ok i : Except String Nat))
    "BTCUSDT" "BUY" 1 10 4 (by norm_num) (by norm_num) (by norm_num)

/-- Witness for C5 at a concrete request. -/
theorem twap_sleep_placement_witness :
    ∃ r, BinanceFuturesBot.place_twap_order
        (fun _ _ _ i => (Except.ok i : Except String Nat)) "BTCUSDT" "BUY" 1 10 5 =
        Except.ok r ∧
      r.events = ((List.range r.attemptedCount).map
        (sliceEvents (fun _ _ _ i => (Except.ok i : Except String Nat)) "BTCUSDT"
          "BUY" (5 : ℤ).toNat (1 / ((5 : ℤ) : ℚ))
          (((10 : ℤ) : ℚ) * 60 / ((5 : ℤ) : ℚ)))).flatten ∧
      (∀ s, TwapEvent.sleep s ∈ r.events →
        s = ((10 : ℤ) : ℚ) * 60 / ((5 : ℤ) : ℚ)) :=
  twap_sleep_placement (fun _ _ _ i => (Except.ok i : Except String Nat))
    "BTCUSDT" "BUY" 1 10 5 (by norm_num) (by norm_num) (by norm_num)

/-- Witness for C6 at a concrete quantity, duration and port. -/
theorem twap_degenerate_params_witness :
    (∃ r, BinanceFuturesBot.place_twap_order
        (fun _ _ _ i => (Except.ok i : Except String Nat)) "BTCUSDT" "BUY" 1 10 1 =
        Except.ok r ∧
      submitCount r.events = 1 ∧ r.attemptedCount = 1 ∧ r.aborted = false ∧
      (∀ s, TwapEvent.sleep s ∉ r.events)) ∧
    (∃ r, BinanceFuturesBot.place_twap_order
        (fun _ _ _ i => (Except.ok i : Except String Nat)) "BTCUSDT" "BUY" 1 0 5 =
        Except.ok r ∧
      submitCount r.events = 5 ∧ r.attemptedCount = 5 ∧ r.aborted = false ∧
      totalSleep r.events = 0) :=
  twap_degenerate_params (fun _ _ _ i => (Except.ok i : Except String Nat))
    "BTCUSDT" "BUY" 1 10 (fun i => i) (by norm_num) (by norm_num)
    (fun q' i => rfl)

/-- Witness for C7 with a port that rejects the second submission. -/
theorem twap_submission_order_witness :
    ∃ r, BinanceFuturesBot.place_twap_order
        (fun _ _ _ i => if i = 1 then (Except.error "boom" : Except String Nat)
          else Except.ok i) "BTCUSDT" "SELL" 2 6 4 = Except.ok r ∧
      r.events.filterMap submitIndex = List.range r.attemptedCount :=
  twap_submission_order
    (fun _ _ _ i => if i = 1 then (Except.error "boom" : Except String Nat)
      else Except.ok i) "BTCUSDT" "SELL" 2 6 4 (by norm_num)

/-- Witness for C8 with a port that rejects the second submission. -/
theorem twap_no_exception_propagation_witness :
    ∃ r, BinanceFuturesBot.place_twap_order
        (fun _ _ _ i => if i = 1 then (Except.error "boom" : Except String Nat)
          else Except.ok i) "ETHUSDT" "BUY" 3 6 4 = Except.ok r ∧
      (r.aborted = true ↔ ∃ j < r.attemptedCount,
        ∃ e, (fun (_ : String) (_ : String) (_ : ℚ) i =>
            if i = 1 then (Except.error "boom" : Except String Nat)
            else Except.ok i) "ETHUSDT" "BUY" (3 / ((4 : ℤ) : ℚ)) j =
          Except.error e) :=
  twap_no_exception_propagation
    (fun _ _ _ i => if i = 1 then (Except.error "boom" : Except String Nat)
      else Except.ok i) "ETHUSDT" "BUY" 3 6 4 (by norm_num) (by norm_num)
    (by norm_num)

/-- Witness for C9 with a port that rejects the second submission. -/
theorem twap_result_invariants_witness :
    ∃ r, BinanceFuturesBot.place_twap_order
        (fun _ _ _ i => if i = 1 then (Except.error "boom" : Except String Nat)
          else Except.ok i) "BTCUSDT" "BUY" 1 10 5 = Except.ok r ∧
      r.attemptedCount ≤ r.requestedCount ∧
      r.filledSlices.length ≤ r.attemptedCount :=
  twap_result_invariants
    (fun _ _ _ i => if i = 1 then (Except.error "boom" : Except String Nat)
      else Except.ok i) "BTCUSDT" "BUY" 1 10 5 (by norm_num) (by norm_num)
    (by norm_num)

/-- Witness for C10's amended statement at concrete inputs. -/
theorem advanced_twap_stub_witness :
    (AdvancedTwap.place_twap_order Nat "BTCUSDT" "BUY" 1 2 0 =
      Except.error PyErr.zeroDivisionError) ∧
    (∃ es, AdvancedTwap.place_twap_order Nat "BTCUSDT" "BUY" 1 2 4 =
        Except.ok (([] : List Nat), es) ∧
      (∀ ev ∈ es, ev = TwapEvent.sleep (((2 : ℤ) : ℚ) * 60 / ((4 : ℤ) : ℚ))) ∧
      submitCount es = 0 ∧
      AdvancedTwap.console_reported_count "BTCUSDT" "BUY" 1 2 4 = Except.ok 0 ∧
      AdvancedTwap.gui_reported_count "BTCUSDT" "BUY" 1 2 4 = Except.ok 0) ∧
    (∃ es, AdvancedTwap.place_twap_order Nat "BTCUSDT" "BUY" 1 2 4 =
        Except.ok (([] : List Nat), es) ∧
      es = List.replicate ((4 : ℤ).toNat - 1)
        (TwapEvent.sleep (((2 : ℤ) : ℚ) * 60 / ((4 : ℤ) : ℚ)))) :=
  ⟨(advanced_twap_stub Nat "BTCUSDT" "BUY" 1 2 0).1 rfl,
   (advanced_twap_stub Nat "BTCUSDT" "BUY" 1 2 4).2.1 (by norm_num),
   (advanced_twap_stub Nat "BTCUSDT" "BUY" 1 2 4).2.2 (by norm_num) (by norm_num)⟩
